import Mathlib

/-!
Shallow embedding of the core of the `rag-knowledge-assistant` repository:
the chunking pipeline (`src/document_processor.py`, class
`SimpleDocumentProcessor`) and the vector store with similarity ranking
(`src/vector_db.py`, class `MilvusVectorDB`).

Modelling conventions:
* Python strings are modelled as `List Char`; `len` is `List.length`.
* Python floats are modelled as exact rationals `ℚ`; the IEEE value `NaN`
  (which arises in the code from `0/0` when normalizing a zero vector) is
  modelled as `none` in `Option ℚ`.
* Cosine similarity needs a square root, which does not exist in `ℚ`.
  Scores are therefore represented on the signed-square scale
  `x ↦ sign(x)·x²`, a strictly monotone bijection of `ℝ`: ranking order,
  top-k selection, threshold filtering (with thresholds on the same scale)
  and NaN behaviour are all invariant under this order isomorphism.
* File I/O (`save_to_disk`, snapshot deletion) is modelled by a `saved`
  flag; `print` calls are dropped.
-/

namespace RagCore

/-- The whitespace set of Python's `str.strip`/`str.split`/`\s` (ASCII part). -/
def pySpace (c : Char) : Bool :=
  c = ' ' || c = '\t' || c = '\n' || c = '\r' || c = '\x0b' || c = '\x0c'

/-- Python `str.strip()`: drop leading and trailing whitespace. -/
def pyStrip (s : List Char) : List Char :=
  ((s.dropWhile pySpace).reverse.dropWhile pySpace).reverse

/-- Worker for Python `str.split()` with no argument: `acc` is the current
word, reversed.  Phrased as a single structural scan so that it reduces in
the kernel. -/
def pySplitWsGo (acc : List Char) : List Char → List (List Char)
  | [] => if acc = [] then [] else [acc.reverse]
  | c :: rest =>
    if pySpace c then
      if acc = [] then pySplitWsGo [] rest else acc.reverse :: pySplitWsGo [] rest
    else pySplitWsGo (c :: acc) rest

/-- Python `str.split()` with no argument: maximal non-whitespace runs,
empty pieces discarded. -/
def pySplitWs (s : List Char) : List (List Char) := pySplitWsGo [] s

/-- Python `text.split('\n\n')`: split on exact occurrences of two newlines,
scanning left to right. -/
def splitNN : List Char → List (List Char)
  | [] => [[]]
  | '\n' :: '\n' :: rest => [] :: splitNN rest
  | c :: rest =>
    match splitNN rest with
    | [] => [[c]]
    | s :: ss => (c :: s) :: ss

/-- Sentence-terminal punctuation of the regex `(?<=[.!?])\s+`. -/
def sentencePunct (c : Char) : Bool :=
  c = '.' || c = '!' || c = '?'

/-- Whether a list starts with a whitespace character. -/
def startsWithSpace : List Char → Bool
  | [] => false
  | c :: _ => pySpace c

/-- Worker for `re.split(r'(?<=[.!?])\s+', text)`: `acc` is the current
piece (reversed); `skipping = true` means the scan is inside the maximal
whitespace run that forms the (discarded) separator.  A split point is a
`[.!?]` character immediately followed by whitespace.  Phrased as a single
structural scan so that it reduces in the kernel. -/
def splitSentencesGo (acc : List Char) (skipping : Bool) :
    List Char → List (List Char)
  | [] => if skipping then [[]] else [acc.reverse]
  | c :: rest =>
    if skipping then
      if pySpace c then splitSentencesGo [] true rest
      else if sentencePunct c && startsWithSpace rest then
        [c] :: splitSentencesGo [] true rest
      else splitSentencesGo [c] false rest
    else
      if sentencePunct c && startsWithSpace rest then
        (acc.reverse ++ [c]) :: splitSentencesGo [] true rest
      else splitSentencesGo (c :: acc) false rest

/-- Python `re.split(r'(?<=[.!?])\s+', text)`. -/
def splitSentences (s : List Char) : List (List Char) :=
  splitSentencesGo [] false s

/-- Model of Python `pathlib.Path(source).stem`: the final path component
without its extension (a dot at position 0 of the name is not an
extension separator). -/
def pathStem (source : String) : String :=
  let name := ((source.data.reverse.takeWhile (· ≠ '/')).reverse)
  let stem :=
    if (name.drop 1).contains '.' then
      (name.reverse.dropWhile (· ≠ '.')).drop 1 |>.reverse
    else name
  ⟨stem⟩

/-- The chunk record built by `SimpleDocumentProcessor._create_chunk`. -/
structure Chunk where
  text : List Char
  chunk_id : String
  source : String
  chunk_number : ℕ
  char_count : ℕ
  word_count : ℕ
  char_start : ℕ
  char_end : ℕ
  deriving DecidableEq, Repr, Inhabited

/-- `_create_chunk(text, chunk_id, source)`: note that `text` is stripped
for the `text` field but `char_count`/`char_end` are the length of the
*unstripped* argument. -/
def create_chunk (t : List Char) (id : ℕ) (source : String) : Chunk :=
  { text := pyStrip t
    chunk_id := pathStem source ++ "_chunk_" ++ toString id
    source := source
    chunk_number := id
    char_count := t.length
    word_count := (pySplitWs t).length
    char_start := 0
    char_end := t.length }

/-- Recursive worker of `_force_split_text`: one step per window position
of the Python loop `for i in range(0, len(text), stride)`, dropping
`stride = size - overlap` characters per step.  The extra `fuel` argument
(instantiated with `text.length`, an upper bound on the number of steps
whenever `overlap < size`) makes the recursion structural so that it
reduces in the kernel. -/
def force_split_go (size overlap : ℕ) (source : String) :
    ℕ → List Char → ℕ → List Chunk
  | 0, _, _ => []
  | _ + 1, [], _ => []
  | fuel + 1, c :: text, id =>
    let window := (c :: text).take size
    let rest := (c :: text).drop (size - overlap)
    if pyStrip window = [] then force_split_go size overlap source fuel rest id
    else create_chunk window id source ::
      force_split_go size overlap source fuel rest (id + 1)

/-- `_force_split_text(text, source, start_id)`: slide a window of width
`size` with stride `size - overlap`, skipping whitespace-only windows.
For `overlap ≥ size` the Python `range` raises (stride 0) or is empty
(stride < 0); both collapse to `[]` here and every theorem about forced
splitting assumes the configuration constraint `overlap < size`. -/
def force_split_text (size overlap : ℕ) (source : String)
    (text : List Char) (id : ℕ) : List Chunk :=
  if size ≤ overlap then []
  else force_split_go size overlap source text.length text id

/-- Loop of `_split_long_text`: greedy accumulation of sentences joined by
a single space; a sentence longer than `size` goes to forced windowing. -/
def split_long_loop (size overlap : ℕ) (source : String) :
    List (List Char) → List Char → ℕ → List Chunk
  | [], cur, id => if cur = [] then [] else [create_chunk cur id source]
  | s :: ss, cur, id =>
    let s := pyStrip s
    if s = [] then split_long_loop size overlap source ss cur id
    else if cur.length + s.length < size then
      split_long_loop size overlap source ss
        (if cur = [] then s else cur ++ [' '] ++ s) id
    else
      let closed : List Chunk := if cur = [] then [] else [create_chunk cur id source]
      let id1 := if cur = [] then id else id + 1
      if size < s.length then
        let f := force_split_text size overlap source s id1
        closed ++ f ++ split_long_loop size overlap source ss [] (id1 + f.length)
      else
        closed ++ split_long_loop size overlap source ss s id1

/-- `_split_long_text(text, source, start_id)`. -/
def split_long_text (size overlap : ℕ) (source : String)
    (text : List Char) (start_id : ℕ) : List Chunk :=
  split_long_loop size overlap source (splitSentences text) [] start_id

/-- Loop of `smart_chunk_text`: greedy accumulation of paragraphs joined by
`"\n\n"`; a paragraph longer than `size` goes to `_split_long_text`. -/
def smart_loop (size overlap : ℕ) (source : String) :
    List (List Char) → List Char → ℕ → List Chunk
  | [], cur, id => if cur = [] then [] else [create_chunk cur id source]
  | p :: ps, cur, id =>
    let p := pyStrip p
    if p = [] then smart_loop size overlap source ps cur id
    else if cur.length + p.length < size then
      smart_loop size overlap source ps
        (if cur = [] then p else cur ++ ['\n', '\n'] ++ p) id
    else
      let closed : List Chunk := if cur = [] then [] else [create_chunk cur id source]
      let id1 := if cur = [] then id else id + 1
      if size < p.length then
        let subs := split_long_text size overlap source p id1
        closed ++ subs ++ smart_loop size overlap source ps [] (id1 + subs.length)
      else
        closed ++ smart_loop size overlap source ps p id1

/-- `SimpleDocumentProcessor.smart_chunk_text(text, source)` with the
processor's configuration `size = chunk_size`, `overlap = overlap`. -/
def smart_chunk_text (size overlap : ℕ) (text : List Char) (source : String) :
    List Chunk :=
  smart_loop size overlap source (splitNN text) [] 0

/-! ## Vector store (`src/vector_db.py`, class `MilvusVectorDB`) -/

/-- The metadata record derived per chunk in `insert_documents`. -/
structure MetaRec where
  chunk_id : String
  source : String
  char_start : ℕ
  char_end : ℕ
  deriving DecidableEq, Repr, Inhabited

/-- The in-memory state of `MilvusVectorDB`: three parallel lists
(`self.chunks`, `self.embeddings`, `self.metadata`).  The storage path is
not modelled (pure I/O). -/
structure DB where
  chunks : List Chunk
  embeddings : List (List ℚ)
  metadata : List MetaRec
  deriving DecidableEq, Repr, Inhabited

/-- The store as constructed with no snapshot on disk. -/
def emptyDB : DB := ⟨[], [], []⟩

/-- `np.array(embeddings, dtype=np.float32)` succeeds exactly when the rows
all have the same length; a ragged list raises `ValueError`. -/
def uniformDims (embs : List (List ℚ)) : Prop :=
  ∀ v ∈ embs, v.length = (embs.headD []).length

instance (embs : List (List ℚ)) : Decidable (uniformDims embs) :=
  List.decidableBAll _ embs

def derive_meta (c : Chunk) : MetaRec :=
  { chunk_id := c.chunk_id
    source := c.source
    char_start := c.char_start
    char_end := c.char_end }

/-- Observable outcome of one `insert_documents` call: the state of `self`
after the call, the exception propagated to the caller (if any), the
value returned to the caller, and whether `save_to_disk` ran. -/
structure InsertOutcome where
  db : DB
  raised : Option String
  ret : Option ℕ
  saved : Bool
  deriving DecidableEq, Repr

/-- `MilvusVectorDB.insert_documents(chunks, embeddings)` (lines 30-60).
The count-mismatch `ValueError` is raised before the `try` block, so it
propagates; everything inside the `try` that fails (e.g. `np.array` on a
ragged batch) is caught and only printed.  The function body has no
`return` statement, so the caller always receives `None` (`ret = none`). -/
def insert_documents (db : DB) (chunks : List Chunk)
    (embeddings : List (List ℚ)) : InsertOutcome :=
  if chunks.length ≠ embeddings.length then
    { db := db
      raised := some ("Chunks (" ++ toString chunks.length ++ ") and embeddings ("
        ++ toString embeddings.length ++ ") count mismatch")
      ret := none
      saved := false }
  else if ¬ uniformDims embeddings then
    -- np.array raises ValueError before any mutation; caught and printed
    { db := db, raised := none, ret := none, saved := false }
  else
    { db := { chunks := db.chunks ++ chunks
              embeddings := db.embeddings ++ embeddings
              metadata := db.metadata ++ chunks.map derive_meta }
      raised := none
      ret := none
      saved := true }

/-- `MilvusVectorDB.clear_database` (lines 159-169); the snapshot-file
deletion is I/O and not modelled. -/
def clear_database (_db : DB) : DB := emptyDB

/-- The dictionary returned by `get_status` (lines 150-157); Python's
`list(set(...))` is modelled as first-occurrence deduplication. -/
structure Status where
  total_chunks : ℕ
  total_embeddings : ℕ
  sources : List String
  deriving DecidableEq, Repr

def get_status (db : DB) : Status :=
  { total_chunks := db.chunks.length
    total_embeddings := db.embeddings.length
    sources := (db.chunks.map Chunk.source).dedup }

/-! ## Similarity search (`search_similar`, lines 62-107)

Scores live in `Option ℚ`: `none` is IEEE `NaN`, produced when the query
or a stored vector has zero norm (`0/0` in the NumPy normalization —
NumPy emits a warning, not an exception).  A real cosine value `c` is
represented as its signed square `sign(c)·c²` (see the header comment). -/

def normSq (v : List ℚ) : ℚ := (v.map (fun x => x * x)).sum

def dotProd (u v : List ℚ) : ℚ := (List.zipWith (· * ·) u v).sum

/-- Cosine similarity of query `q` against stored vector `v`, on the
signed-square scale, with `none` for the NaN produced by a zero norm. -/
def simScoreSq (q v : List ℚ) : Option ℚ :=
  if normSq v = 0 ∨ normSq q = 0 then none
  else some ((if dotProd v q < 0 then -1 else 1) * (dotProd v q * dotProd v q)
    / (normSq v * normSq q))

/-- The `similarities` array: one score per stored vector, in store order. -/
def simsOf (db : DB) (q : List ℚ) : List (Option ℚ) :=
  db.embeddings.map (simScoreSq q)

/-- Strict comparison of float scores as NumPy sorts them ascending:
every real value sorts before NaN (`np.argsort` places NaN last). -/
def scoreLt : Option ℚ → Option ℚ → Bool
  | none, _ => false
  | some _, none => true
  | some a, some b => decide (a < b)

/-- Ascending comparison of store indices by score, ties broken by index:
this is the (unique) stable ascending argsort order. -/
def idxLe (s : List (Option ℚ)) (i j : ℕ) : Bool :=
  scoreLt (s.getD i none) (s.getD j none) ||
    (decide (s.getD i none = s.getD j none) && decide (i ≤ j))

/-- `np.argsort(similarities)`: the store indices sorted ascending by
score (NaN last, ties in index order). -/
def argsortAsc (s : List (Option ℚ)) : List ℕ :=
  List.insertionSort (fun i j => idxLe s i j = true) (List.range s.length)

/-- `np.argsort(similarities)[::-1][:top_k]`: the top-k candidate indices,
descending by score (NaN first). -/
def rankedIdx (db : DB) (q : List ℚ) (top_k : ℕ) : List ℕ :=
  ((argsortAsc (simsOf db q)).reverse).take top_k

/-- A result dictionary appended by the search loop (lines 91-97). -/
structure SearchResult where
  text : List Char
  source : String
  score : ℚ
  chunk_id : String
  metadata : MetaRec
  deriving DecidableEq, Repr, Inhabited

/-- The result-building loop (lines 86-97).  A NaN score fails
`score >= threshold` and is skipped; an out-of-range access to
`self.chunks`/`self.metadata` raises `IndexError`, which the enclosing
`except` turns into an empty result list (`none` here). -/
def results_loop (db : DB) (s : List (Option ℚ)) (threshold : ℚ) :
    List ℕ → Option (List SearchResult)
  | [] => some []
  | i :: rest =>
    match s.getD i none with
    | none => results_loop db s threshold rest
    | some sc =>
      if threshold ≤ sc then
        match db.chunks.get? i, db.metadata.get? i with
        | some c, some m =>
          (results_loop db s threshold rest).map
            (fun rs =>
              { text := c.text, source := c.source, score := sc,
                chunk_id := c.chunk_id, metadata := m } :: rs)
        | _, _ => none
      else results_loop db s threshold rest

/-- `MilvusVectorDB.search_similar(query_embedding, top_k,
similarity_threshold)` (lines 62-107).  The guards mirror the code paths
that return `[]`: an empty store (line 65), and the `except` clause for a
ragged stored-embedding list (`np.array` raises) or a query whose length
differs from the stored dimension (`np.dot` raises). -/
def search_similar (db : DB) (q : List ℚ) (top_k : ℕ) (threshold : ℚ) :
    List SearchResult :=
  if db.embeddings.isEmpty then []
  else if ¬ uniformDims db.embeddings then []
  else if q.length ≠ (db.embeddings.headD []).length then []
  else
    match results_loop db (simsOf db q) threshold (rankedIdx db q top_k) with
    | some rs => rs
    | none => []

/-- The store operations that a caller can run, for stating state
invariants.  `search` and `status` never assign to `self.chunks`,
`self.embeddings` or `self.metadata` (they only read them), so they leave
the state unchanged. -/
inductive Op where
  | insert (chunks : List Chunk) (embeddings : List (List ℚ))
  | clear
  | search (q : List ℚ) (top_k : ℕ) (threshold : ℚ)
  | status

/-- State transition of one operation on the store. -/
def applyOp (db : DB) : Op → DB
  | .insert cs es => (insert_documents db cs es).db
  | .clear => clear_database db
  | .search _ _ _ => db
  | .status => db

/-- Every chunk emitted by the chunker is built by `_create_chunk`. -/
def IsCreatedFrom (source : String) (c : Chunk) : Prop :=
  ∃ t id, c = create_chunk t id source

/-- Strict descending-rank order on store indices with scores `s`: a
strictly larger score (NaN counting as the largest), or an equal score
with a strictly larger index. -/
def idxGt (s : List (Option ℚ)) (i j : ℕ) : Prop :=
  scoreLt (s.getD j none) (s.getD i none) = true ∨
    (s.getD i none = s.getD j none ∧ j < i)

/-- Whether a score passes `score >= similarity_threshold` (false for
NaN). -/
def clearsThreshold (t : ℚ) : Option ℚ → Bool
  | none => false
  | some s => decide (t ≤ s)

/-- How many stored entries clear the similarity threshold. -/
def countClearing (db : DB) (q : List ℚ) (t : ℚ) : ℕ :=
  ((simsOf db q).filter (clearsThreshold t)).length

/-- Modelled from the spec (§4.3, §7), for comparison with the code's
`search_similar`: a zero-norm vector is guarded explicitly and "treated as
similarity 0 against that entry"; no NaN exists.  Scores are on the same
signed-square scale as `simScoreSq`. -/
def guardedScore (q v : List ℚ) : ℚ :=
  if normSq v = 0 ∨ normSq q = 0 then 0
  else (if dotProd v q < 0 then -1 else 1) * (dotProd v q * dotProd v q)
    / (normSq v * normSq q)

/-- Descending comparison of store indices by guarded score, ties broken
by insertion order (ascending index): the spec's ranking order. -/
def idxDescLe (s : List ℚ) (i j : ℕ) : Bool :=
  decide (s.getD j 0 < s.getD i 0) ||
    (decide (s.getD i 0 = s.getD j 0) && decide (i ≤ j))

/-- Modelled from the spec (§4.3, §7): search with the explicit
zero-norm guard — sort descending (stable, ties in insertion order), take
`top_k`, then drop entries whose score is below the threshold. -/
def search_guarded (db : DB) (q : List ℚ) (top_k : ℕ) (threshold : ℚ) :
    List SearchResult :=
  let s := db.embeddings.map (guardedScore q)
  let ranked := (List.insertionSort (fun i j => idxDescLe s i j = true)
    (List.range s.length)).take top_k
  ranked.filterMap (fun i =>
    match db.chunks.get? i, db.metadata.get? i with
    | some c, some m =>
      if threshold ≤ s.getD i 0 then
        some { text := c.text, source := c.source, score := s.getD i 0,
               chunk_id := c.chunk_id, metadata := m }
      else none
    | _, _ => none)

/-! ### Concrete sample data used in witnesses and counterexamples -/

def chunkA : Chunk := create_chunk "a".data 0 "a"

def chunkB : Chunk := create_chunk "b".data 0 "b"

def chunkC : Chunk := create_chunk "c".data 0 "c"

/-- A store holding one 2-dimensional entry. -/
def dbA : DB := ⟨[chunkA], [[1, 0]], [derive_meta chunkA]⟩

/-- A store with two entries carrying identical vectors (a score tie). -/
def dbTie : DB :=
  ⟨[chunkA, chunkB], [[1, 0], [1, 0]], [derive_meta chunkA, derive_meta chunkB]⟩

/-- A store whose first entry is a zero-norm vector. -/
def dbZero : DB :=
  ⟨[chunkA, chunkB], [[0, 0], [1, 0]], [derive_meta chunkA, derive_meta chunkB]⟩

/-- A store with three entries of strictly decreasing similarity to the
query `[2, 0]`: scores `1`, `1/2`, `0` on the signed-square scale. -/
def db3 : DB :=
  ⟨[chunkA, chunkB, chunkC], [[2, 0], [1, 1], [0, 1]],
    [derive_meta chunkA, derive_meta chunkB, derive_meta chunkC]⟩

/-! ## Lemmas about the chunker -/

theorem pyStrip_length_le (s : List Char) : (pyStrip s).length ≤ s.length := by
  have h1 := (List.dropWhile_suffix (l := s) pySpace).length_le
  have h2 := (List.dropWhile_suffix
    (l := (s.dropWhile pySpace).reverse) pySpace).length_le
  simp only [pyStrip, List.length_reverse]
  simp only [List.length_reverse] at h2
  omega

theorem mem_if_closed {cur : List Char} {id : ℕ} {source : String} {c : Chunk}
    (h : c ∈ (if cur = [] then ([] : List Chunk)
      else [create_chunk cur id source])) :
    c = create_chunk cur id source := by
  split at h
  · simp at h
  · simpa using h

theorem mem_force_split_go {size overlap : ℕ} {source : String} :
    ∀ (fuel : ℕ) (t : List Char) (id : ℕ) (c : Chunk),
      c ∈ force_split_go size overlap source fuel t id →
      IsCreatedFrom source c := by
  intro fuel
  induction fuel with
  | zero =>
    intro t id c h
    simp [force_split_go] at h
  | succ n ih =>
    intro t id c h
    cases t with
    | nil => simp [force_split_go] at h
    | cons x xs =>
      simp only [force_split_go] at h
      split at h
      · exact ih _ _ _ h
      · rcases List.mem_cons.mp h with h | h
        · exact ⟨_, _, h⟩
        · exact ih _ _ _ h

theorem mem_force_split_text {size overlap : ℕ} {source : String}
    {t : List Char} {id : ℕ} {c : Chunk}
    (h : c ∈ force_split_text size overlap source t id) :
    IsCreatedFrom source c := by
  unfold force_split_text at h
  split at h
  · simp at h
  · exact mem_force_split_go _ _ _ _ h

theorem mem_split_long_loop {size overlap : ℕ} {source : String} :
    ∀ (ss : List (List Char)) (cur : List Char) (id : ℕ) (c : Chunk),
      c ∈ split_long_loop size overlap source ss cur id →
      IsCreatedFrom source c := by
  intro ss
  induction ss with
  | nil =>
    intro cur id c h
    simp only [split_long_loop] at h
    exact ⟨_, _, mem_if_closed h⟩
  | cons s ss ih =>
    intro cur id c h
    simp only [split_long_loop] at h
    split at h
    · exact ih _ _ _ h
    · split at h
      · exact ih _ _ _ h
      · split at h
        · rcases List.mem_append.mp h with h | h
          · rcases List.mem_append.mp h with h | h
            · exact ⟨_, _, mem_if_closed h⟩
            · exact mem_force_split_text h
          · exact ih _ _ _ h
        · rcases List.mem_append.mp h with h | h
          · exact ⟨_, _, mem_if_closed h⟩
          · exact ih _ _ _ h

theorem mem_split_long_text {size overlap : ℕ} {source : String}
    {t : List Char} {id : ℕ} {c : Chunk}
    (h : c ∈ split_long_text size overlap source t id) :
    IsCreatedFrom source c :=
  mem_split_long_loop _ _ _ _ h

theorem mem_smart_loop {size overlap : ℕ} {source : String} :
    ∀ (ps : List (List Char)) (cur : List Char) (id : ℕ) (c : Chunk),
      c ∈ smart_loop size overlap source ps cur id →
      IsCreatedFrom source c := by
  intro ps
  induction ps with
  | nil =>
    intro cur id c h
    simp only [smart_loop] at h
    exact ⟨_, _, mem_if_closed h⟩
  | cons p ps ih =>
    intro cur id c h
    simp only [smart_loop] at h
    split at h
    · exact ih _ _ _ h
    · split at h
      · exact ih _ _ _ h
      · split at h
        · rcases List.mem_append.mp h with h | h
          · rcases List.mem_append.mp h with h | h
            · exact ⟨_, _, mem_if_closed h⟩
            · exact mem_split_long_text h
          · exact ih _ _ _ h
        · rcases List.mem_append.mp h with h | h
          · exact ⟨_, _, mem_if_closed h⟩
          · exact ih _ _ _ h

theorem mem_smart_chunk_text {size overlap : ℕ} {source : String}
    {text : List Char} {c : Chunk}
    (h : c ∈ smart_chunk_text size overlap text source) :
    IsCreatedFrom source c :=
  mem_smart_loop _ _ _ _ h

/-- C4 (amended): for every chunk produced by the chunker, `char_count` is
the length of the chunk's raw text *before* trimming, while the stored
`text` field is the trimmed text; hence `length(text) ≤ char_count`, with
equality exactly when no whitespace was trimmed. -/
theorem chunk_text_length_le_char_count (size overlap : ℕ) (text : List Char)
    (source : String) :
    ∀ c ∈ smart_chunk_text size overlap text source,
      c.text.length ≤ c.char_count := by
  intro c hc
  obtain ⟨t, id, rfl⟩ := mem_smart_chunk_text hc
  simpa [create_chunk] using pyStrip_length_le t

/-- Witness for `chunk_text_length_le_char_count` at a concrete input: the
first forced window of `"AAAA AAAA"` with `chunk_size = 5`, `overlap = 1`. -/
theorem chunk_text_length_le_char_count_witness :
    (create_chunk "AAAA ".data 0 "src").text.length ≤
      (create_chunk "AAAA ".data 0 "src").char_count :=
  chunk_text_length_le_char_count 5 1 "AAAA AAAA".data "src"
    (create_chunk "AAAA ".data 0 "src") (by decide)

/-- C4 (counterexample): the claim `char_count == length(text)` fails: the
chunker on `"AAAA AAAA"` with `chunk_size = 5`, `overlap = 1` emits a
forced window whose raw text `"AAAA "` has `char_count = 5` but whose
stored (stripped) text `"AAAA"` has length 4. -/
theorem chunk_char_count_ne_text_length_cex :
    ∃ c ∈ smart_chunk_text 5 1 "AAAA AAAA".data "src",
      c.char_count ≠ c.text.length := by decide

/-! ## Chunk numbering (C9) -/

theorem range'_glue (s a b : ℕ) :
    List.range' s a ++ List.range' (s + a) b = List.range' s (a + b) := by
  have h := List.range'_append s a b 1
  rw [Nat.one_mul] at h
  rw [h, Nat.add_comm b a]

theorem numbers_force_split_go (size overlap : ℕ) (source : String) :
    ∀ (fuel : ℕ) (t : List Char) (id : ℕ),
      (force_split_go size overlap source fuel t id).map Chunk.chunk_number =
        List.range' id (force_split_go size overlap source fuel t id).length := by
  intro fuel
  induction fuel with
  | zero => intro t id; simp [force_split_go]
  | succ n ih =>
    intro t id
    cases t with
    | nil => simp [force_split_go]
    | cons x xs =>
      simp only [force_split_go]
      split
      · exact ih _ _
      · simp only [List.map_cons, List.length_cons, ih, create_chunk]
        rw [List.range'_succ]

theorem numbers_force_split_text (size overlap : ℕ) (source : String)
    (t : List Char) (id : ℕ) :
    (force_split_text size overlap source t id).map Chunk.chunk_number =
      List.range' id (force_split_text size overlap source t id).length := by
  unfold force_split_text
  split
  · simp
  · exact numbers_force_split_go size overlap source _ t id

theorem map_number_append2 {A C : List Chunk} {id : ℕ}
    (hA : A.map Chunk.chunk_number = List.range' id A.length)
    (hC : C.map Chunk.chunk_number = List.range' (id + A.length) C.length) :
    (A ++ C).map Chunk.chunk_number = List.range' id (A ++ C).length := by
  rw [List.map_append, hA, hC, range'_glue, List.length_append]

theorem map_number_append3 {A B C : List Chunk} {id : ℕ}
    (hA : A.map Chunk.chunk_number = List.range' id A.length)
    (hB : B.map Chunk.chunk_number = List.range' (id + A.length) B.length)
    (hC : C.map Chunk.chunk_number =
      List.range' (id + A.length + B.length) C.length) :
    (A ++ B ++ C).map Chunk.chunk_number =
      List.range' id (A ++ B ++ C).length := by
  rw [List.map_append, List.map_append, hA, hB, hC, range'_glue,
    Nat.add_assoc, range'_glue, List.length_append, List.length_append]

theorem closed_map (cur : List Char) (id : ℕ) (source : String) :
    (if cur = [] then ([] : List Chunk)
      else [create_chunk cur id source]).map Chunk.chunk_number =
      List.range' id (if cur = [] then ([] : List Chunk)
        else [create_chunk cur id source]).length := by
  split <;> simp [create_chunk]

theorem closed_id1 (cur : List Char) (id : ℕ) (source : String) :
    (if cur = [] then id else id + 1) =
      id + (if cur = [] then ([] : List Chunk)
        else [create_chunk cur id source]).length := by
  split <;> simp

theorem numbers_split_long_loop (size overlap : ℕ) (source : String) :
    ∀ (ss : List (List Char)) (cur : List Char) (id : ℕ),
      (split_long_loop size overlap source ss cur id).map Chunk.chunk_number =
        List.range' id (split_long_loop size overlap source ss cur id).length := by
  intro ss
  induction ss with
  | nil =>
    intro cur id
    simp only [split_long_loop]
    split
    · simp
    · simp [create_chunk]
  | cons s ss ih =>
    intro cur id
    simp only [split_long_loop]
    split
    · exact ih _ _
    · split
      · exact ih _ _
      · split
        · refine map_number_append3 (closed_map cur id source) ?_ ?_
          · rw [← closed_id1]
            exact numbers_force_split_text size overlap source _ _
          · rw [← closed_id1]
            exact ih _ _
        · refine map_number_append2 (closed_map cur id source) ?_
          rw [← closed_id1]
          exact ih _ _

theorem numbers_split_long_text (size overlap : ℕ) (source : String)
    (t : List Char) (id : ℕ) :
    (split_long_text size overlap source t id).map Chunk.chunk_number =
      List.range' id (split_long_text size overlap source t id).length :=
  numbers_split_long_loop size overlap source _ [] id

theorem numbers_smart_loop (size overlap : ℕ) (source : String) :
    ∀ (ps : List (List Char)) (cur : List Char) (id : ℕ),
      (smart_loop size overlap source ps cur id).map Chunk.chunk_number =
        List.range' id (smart_loop size overlap source ps cur id).length := by
  intro ps
  induction ps with
  | nil =>
    intro cur id
    simp only [smart_loop]
    split
    · simp
    · simp [create_chunk]
  | cons p ps ih =>
    intro cur id
    simp only [smart_loop]
    split
    · exact ih _ _
    · split
      · exact ih _ _
      · split
        · refine map_number_append3 (closed_map cur id source) ?_ ?_
          · rw [← closed_id1]
            exact numbers_split_long_text size overlap source _ _
          · rw [← closed_id1]
            exact ih _ _
        · refine map_number_append2 (closed_map cur id source) ?_
          rw [← closed_id1]
          exact ih _ _

/-! ## Chunk size bounds (C3) -/

theorem char_count_force_split_go (size overlap : ℕ) (source : String) :
    ∀ (fuel : ℕ) (t : List Char) (id : ℕ),
      ∀ c ∈ force_split_go size overlap source fuel t id,
        c.char_count ≤ size := by
  intro fuel
  induction fuel with
  | zero => intro t id c h; simp [force_split_go] at h
  | succ n ih =>
    intro t id c h
    cases t with
    | nil => simp [force_split_go] at h
    | cons x xs =>
      simp only [force_split_go] at h
      split at h
      · exact ih _ _ _ h
      · rcases List.mem_cons.mp h with h | h
        · subst h
          simp only [create_chunk]
          exact List.length_take_le size (x :: xs)
        · exact ih _ _ _ h

theorem char_count_force_split_text (size overlap : ℕ) (source : String)
    (t : List Char) (id : ℕ) :
    ∀ c ∈ force_split_text size overlap source t id, c.char_count ≤ size := by
  intro c h
  unfold force_split_text at h
  split at h
  · simp at h
  · exact char_count_force_split_go size overlap source _ t id c h

theorem char_count_split_long_loop (size overlap : ℕ) (source : String) :
    ∀ (ss : List (List Char)) (cur : List Char) (id : ℕ),
      cur.length ≤ size →
      ∀ c ∈ split_long_loop size overlap source ss cur id,
        c.char_count ≤ size := by
  intro ss
  induction ss with
  | nil =>
    intro cur id hcur c h
    simp only [split_long_loop] at h
    have := mem_if_closed h
    subst this
    simpa [create_chunk] using hcur
  | cons s ss ih =>
    intro cur id hcur c h
    simp only [split_long_loop] at h
    split at h
    · exact ih _ _ hcur _ h
    · rename_i hfit
      split at h
      · refine ih _ _ ?_ _ h
        split
        · omega
        · simp only [List.length_append, List.length_cons,
            List.length_nil] at *
          omega
      · split at h
        · rcases List.mem_append.mp h with h | h
          · rcases List.mem_append.mp h with h | h
            · have := mem_if_closed h
              subst this
              simpa [create_chunk] using hcur
            · exact char_count_force_split_text size overlap source _ _ c h
          · exact ih _ _ (by simp) _ h
        · rcases List.mem_append.mp h with h | h
          · have := mem_if_closed h
            subst this
            simpa [create_chunk] using hcur
          · refine ih _ _ ?_ _ h
            omega

theorem char_count_split_long_text (size overlap : ℕ) (source : String)
    (t : List Char) (id : ℕ) :
    ∀ c ∈ split_long_text size overlap source t id, c.char_count ≤ size :=
  char_count_split_long_loop size overlap source _ [] id (by simp)

theorem char_count_smart_loop (size overlap : ℕ) (source : String) :
    ∀ (ps : List (List Char)) (cur : List Char) (id : ℕ),
      cur.length ≤ size + 1 →
      ∀ c ∈ smart_loop size overlap source ps cur id,
        c.char_count ≤ size + 1 := by
  intro ps
  induction ps with
  | nil =>
    intro cur id hcur c h
    simp only [smart_loop] at h
    have := mem_if_closed h
    subst this
    simpa [create_chunk] using hcur
  | cons p ps ih =>
    intro cur id hcur c h
    simp only [smart_loop] at h
    split at h
    · exact ih _ _ hcur _ h
    · rename_i hfit
      split at h
      · refine ih _ _ ?_ _ h
        split
        · omega
        · simp only [List.length_append, List.length_cons,
            List.length_nil] at *
          omega
      · split at h
        · rcases List.mem_append.mp h with h | h
          · rcases List.mem_append.mp h with h | h
            · have := mem_if_closed h
              subst this
              simpa [create_chunk] using hcur
            · have := char_count_split_long_text size overlap source _ _ c h
              omega
          · exact ih _ _ (by simp) _ h
        · rcases List.mem_append.mp h with h | h
          · have := mem_if_closed h
            subst this
            simpa [create_chunk] using hcur
          · refine ih _ _ ?_ _ h
            omega

/-- C3 (amended): every chunk produced by the chunker has
`char_count ≤ chunk_size + 1`.  The stated bound `char_count ≤ chunk_size`
can be exceeded — by exactly one character — by a chunk accumulated from
*several* paragraphs, because the greedy test
`len(current_chunk) + len(para) < chunk_size` does not count the 2-character
`"\n\n"` separator inserted between them; sentence-pass chunks and forced
windows never exceed `chunk_size` (see `char_count_split_long_text` and
`char_count_force_split_text`), so indivisible oversized units are *not* a
source of oversized chunks. -/
theorem smart_chunk_text_char_count_bound (size overlap : ℕ)
    (text : List Char) (source : String) :
    ∀ c ∈ smart_chunk_text size overlap text source,
      c.char_count ≤ size + 1 :=
  char_count_smart_loop size overlap source _ [] 0 (by simp)

/-- Witness for `smart_chunk_text_char_count_bound` at a concrete input:
the first chunk of `"AAAA\n\nBBBBB\n\nC"` with `chunk_size = 10`. -/
theorem smart_chunk_text_char_count_bound_witness :
    (create_chunk "AAAA\n\nBBBBB".data 0 "d").char_count ≤ 10 + 1 :=
  smart_chunk_text_char_count_bound 10 2 "AAAA\n\nBBBBB\n\nC".data "d"
    (create_chunk "AAAA\n\nBBBBB".data 0 "d") (by decide)

/-- C3 (counterexample): with `chunk_size = 10` on the text
`"AAAA\n\nBBBBB\n\nC"`, no paragraph, sentence or word exceeds 10
characters (so no chunk originates from an indivisible oversized unit),
yet the chunker emits a chunk with `char_count = 11 > 10`: the two
paragraphs `"AAAA"` and `"BBBBB"` are joined because `4 + 5 < 10`, but the
`"\n\n"` separator pushes the chunk to 11 characters. -/
theorem smart_chunk_text_char_count_cex :
    (∀ p ∈ (splitNN "AAAA\n\nBBBBB\n\nC".data).map pyStrip, p.length ≤ 10) ∧
    (∀ p ∈ (splitNN "AAAA\n\nBBBBB\n\nC".data).map pyStrip,
      ∀ s ∈ (splitSentences p).map pyStrip, s.length ≤ 10) ∧
    (∀ w ∈ pySplitWs "AAAA\n\nBBBBB\n\nC".data, w.length ≤ 10) ∧
    (∃ c ∈ smart_chunk_text 10 2 "AAAA\n\nBBBBB\n\nC".data "d",
      10 < c.char_count) := by decide

/-- C9: for every input text and source, the `chunk_number`s of the `k`
chunks produced by `smart_chunk_text` are exactly `0, 1, ..., k-1` in
emission order — no gaps, no repeats — regardless of which of the three
fallback levels (paragraph, sentence, forced window) produced each chunk. -/
theorem smart_chunk_text_numbers (size overlap : ℕ) (text : List Char)
    (source : String) :
    (smart_chunk_text size overlap text source).map Chunk.chunk_number =
      List.range (smart_chunk_text size overlap text source).length := by
  rw [List.range_eq_range']
  exact numbers_smart_loop size overlap source _ [] 0

/-! ## Store claims (C1, C7, C8, C10) -/

/-- C1: for every pair of input lists whose lengths differ,
`insert_documents` raises (the `ValueError` playing the role of the spec's
`DimensionMismatch`) and leaves the store unchanged — the raise happens
before any mutation, so chunks, embeddings and metadata are exactly as
before the call. -/
theorem insert_mismatch_fails_unchanged (db : DB) (chunks : List Chunk)
    (embs : List (List ℚ)) (h : chunks.length ≠ embs.length) :
    (insert_documents db chunks embs).raised.isSome ∧
    (insert_documents db chunks embs).db = db := by
  unfold insert_documents
  rw [if_pos h]
  exact ⟨rfl, rfl⟩

/-- Witness for `insert_mismatch_fails_unchanged`: one chunk, zero
vectors. -/
theorem insert_mismatch_fails_unchanged_witness :
    (insert_documents emptyDB [chunkA] []).raised.isSome ∧
    (insert_documents emptyDB [chunkA] []).db = emptyDB :=
  insert_mismatch_fails_unchanged emptyDB [chunkA] [] (by decide)

/-- C7 (counterexample): inserting a batch whose (uniform) vector
dimensionality (3) differs from the store's existing dimensionality (2)
does **not** fail: no error is surfaced and the 3-dimensional vector is
stored next to the 2-dimensional one, so the store does not keep a single
dimensionality. -/
theorem insert_dim_mismatch_cex :
    (insert_documents dbA [chunkB] [[1, 2, 3]]).raised = none ∧
    (insert_documents dbA [chunkB] [[1, 2, 3]]).db.embeddings =
      [[1, 0], [1, 2, 3]] := by decide

/-- C7 (amended): `insert_documents` never checks vector dimensionality
against the store.  For equal-length inputs nothing is ever surfaced to
the caller: a batch that is internally ragged makes `np.array` raise, but
the exception is caught and only printed (the store is left unchanged);
a dimensionally uniform batch is appended unconditionally, whatever the
store's existing dimensionality. -/
theorem insert_never_surfaces_dim_errors (db : DB) (chunks : List Chunk)
    (embs : List (List ℚ)) (h : chunks.length = embs.length) :
    (insert_documents db chunks embs).raised = none ∧
    (¬ uniformDims embs → (insert_documents db chunks embs).db = db) ∧
    (uniformDims embs →
      (insert_documents db chunks embs).db.embeddings =
        db.embeddings ++ embs) := by
  unfold insert_documents
  rw [if_neg (by omega)]
  by_cases hu : uniformDims embs
  · rw [if_neg (not_not_intro hu)]
    exact ⟨rfl, fun hnu => absurd hu hnu, fun _ => rfl⟩
  · rw [if_pos hu]
    exact ⟨rfl, fun _ => rfl, fun hu' => absurd hu' hu⟩

/-- Witness for `insert_never_surfaces_dim_errors`: a uniform
3-dimensional batch against a 2-dimensional store. -/
theorem insert_never_surfaces_dim_errors_witness :
    (insert_documents dbA [chunkB] [[1, 2, 3]]).raised = none ∧
    (¬ uniformDims [[1, 2, 3]] →
      (insert_documents dbA [chunkB] [[1, 2, 3]]).db = dbA) ∧
    (uniformDims [[1, 2, 3]] →
      (insert_documents dbA [chunkB] [[1, 2, 3]]).db.embeddings =
        dbA.embeddings ++ [[1, 2, 3]]) :=
  insert_never_surfaces_dim_errors dbA [chunkB] [[1, 2, 3]] (by decide)

/-- C8 (counterexample): a successful insert does *not* return the new
total entry count: the Python function body has no `return` statement, so
the caller receives `None` even though the store now holds 1 entry (the
new total is only printed). -/
theorem insert_returns_none_cex :
    (insert_documents emptyDB [chunkA] [[1, 0]]).raised = none ∧
    (insert_documents emptyDB [chunkA] [[1, 0]]).db.chunks.length = 1 ∧
    (insert_documents emptyDB [chunkA] [[1, 0]]).ret ≠ some 1 := by decide

/-- C8 (amended): for every successful insert call (equal-length lists,
dimensionally uniform batch), `insert_documents` appends every chunk,
vector and derived-metadata entry to the store in the given order,
persists the store (`save_to_disk` runs), and afterwards the total entry
count is the old count plus the number of inserted chunks — but the call
returns `None` rather than that count. -/
theorem insert_appends_in_order (db : DB) (chunks : List Chunk)
    (embs : List (List ℚ)) (h : chunks.length = embs.length)
    (hu : uniformDims embs) :
    (insert_documents db chunks embs).db.chunks = db.chunks ++ chunks ∧
    (insert_documents db chunks embs).db.embeddings = db.embeddings ++ embs ∧
    (insert_documents db chunks embs).db.metadata =
      db.metadata ++ chunks.map derive_meta ∧
    (insert_documents db chunks embs).saved = true ∧
    (insert_documents db chunks embs).raised = none ∧
    (insert_documents db chunks embs).ret = none ∧
    (insert_documents db chunks embs).db.chunks.length =
      db.chunks.length + chunks.length := by
  unfold insert_documents
  rw [if_neg (by omega), if_neg (not_not_intro hu)]
  refine ⟨rfl, rfl, rfl, rfl, rfl, rfl, ?_⟩
  simp

/-- Witness for `insert_appends_in_order`: one entry into the empty
store. -/
theorem insert_appends_in_order_witness :
    (insert_documents emptyDB [chunkA] [[1, 0]]).db.chunks =
      emptyDB.chunks ++ [chunkA] ∧
    (insert_documents emptyDB [chunkA] [[1, 0]]).db.embeddings =
      emptyDB.embeddings ++ [[1, 0]] ∧
    (insert_documents emptyDB [chunkA] [[1, 0]]).db.metadata =
      emptyDB.metadata ++ [chunkA].map derive_meta ∧
    (insert_documents emptyDB [chunkA] [[1, 0]]).saved = true ∧
    (insert_documents emptyDB [chunkA] [[1, 0]]).raised = none ∧
    (insert_documents emptyDB [chunkA] [[1, 0]]).ret = none ∧
    (insert_documents emptyDB [chunkA] [[1, 0]]).db.chunks.length =
      emptyDB.chunks.length + [chunkA].length :=
  insert_appends_in_order emptyDB [chunkA] [[1, 0]] (by decide) (by decide)

/-- The three parallel sequences of the store have equal length. -/
def ParallelLens (db : DB) : Prop :=
  db.chunks.length = db.embeddings.length ∧
  db.metadata.length = db.embeddings.length

theorem parallelLens_applyOp {db : DB} (h : ParallelLens db) (op : Op) :
    ParallelLens (applyOp db op) := by
  obtain ⟨h1, h2⟩ := h
  cases op with
  | insert cs es =>
    simp only [applyOp, insert_documents]
    split
    · exact ⟨h1, h2⟩
    · split
      · exact ⟨h1, h2⟩
      · rename_i hlen _
        constructor <;> simp <;> omega
  | clear => exact ⟨rfl, rfl⟩
  | search q k t => exact ⟨h1, h2⟩
  | status => exact ⟨h1, h2⟩

theorem parallelLens_foldl {db : DB} (h : ParallelLens db) :
    ∀ ops : List Op, ParallelLens (ops.foldl applyOp db) := by
  intro ops
  induction ops generalizing db with
  | nil => exact h
  | cons op ops ih => exact ih (parallelLens_applyOp h op)

/-- C10: starting from the empty store, after any sequence of store
operations — inserts (successful or failed), clears, searches, status
reads — the three parallel sequences have equal length:
`len(chunks) == len(embeddings) == len(metadata)`.  `search` and `status`
are modelled as leaving the state untouched because `search_similar` and
`get_status` only read `self.chunks`/`self.embeddings`/`self.metadata`,
never assign them. -/
theorem store_parallel_lengths (ops : List Op) :
    (ops.foldl applyOp emptyDB).chunks.length =
      (ops.foldl applyOp emptyDB).embeddings.length ∧
    (ops.foldl applyOp emptyDB).metadata.length =
      (ops.foldl applyOp emptyDB).embeddings.length :=
  parallelLens_foldl ⟨rfl, rfl⟩ ops

/-! ## Ranking order lemmas (C2, C5, C6) -/

attribute [local semireducible] Rat.mul Rat.add Rat.sub Rat.inv

theorem scoreLt_trans {a b c : Option ℚ} (h1 : scoreLt a b = true)
    (h2 : scoreLt b c = true) : scoreLt a c = true := by
  cases a <;> cases b <;> cases c <;> simp_all [scoreLt]
  exact lt_trans h1 h2

theorem scoreLt_or_eq (a b : Option ℚ) :
    scoreLt a b = true ∨ scoreLt b a = true ∨ a = b := by
  cases a <;> cases b <;> simp only [scoreLt, decide_eq_true_eq] <;> try simp
  rename_i x y
  rcases lt_trichotomy x y with h | h | h
  · exact Or.inl h
  · exact Or.inr (Or.inr h)
  · exact Or.inr (Or.inl h)

theorem idxLe_trans (s : List (Option ℚ)) (i j k : ℕ)
    (h1 : idxLe s i j = true) (h2 : idxLe s j k = true) :
    idxLe s i k = true := by
  simp only [idxLe, Bool.or_eq_true, Bool.and_eq_true, decide_eq_true_eq]
    at h1 h2 ⊢
  rcases h1 with h1 | ⟨e1, le1⟩
  · rcases h2 with h2 | ⟨e2, _⟩
    · exact Or.inl (scoreLt_trans h1 h2)
    · rw [← e2]
      exact Or.inl h1
  · rcases h2 with h2 | ⟨e2, le2⟩
    · rw [e1]
      exact Or.inl h2
    · exact Or.inr ⟨e1.trans e2, le1.trans le2⟩

theorem idxLe_total (s : List (Option ℚ)) (i j : ℕ) :
    idxLe s i j = true ∨ idxLe s j i = true := by
  simp only [idxLe, Bool.or_eq_true, Bool.and_eq_true, decide_eq_true_eq]
  rcases scoreLt_or_eq (s.getD i none) (s.getD j none) with h | h | h
  · exact Or.inl (Or.inl h)
  · exact Or.inr (Or.inl h)
  · rcases Nat.le_total i j with hle | hle
    · exact Or.inl (Or.inr ⟨h, hle⟩)
    · exact Or.inr (Or.inr ⟨h.symm, hle⟩)

theorem idxLe_strict (s : List (Option ℚ)) {i j : ℕ}
    (h : idxLe s i j = true) (hne : i ≠ j) : idxGt s j i := by
  simp only [idxLe, Bool.or_eq_true, Bool.and_eq_true, decide_eq_true_eq] at h
  rcases h with h | ⟨e, le⟩
  · exact Or.inl h
  · exact Or.inr ⟨e.symm, lt_of_le_of_ne le hne⟩

theorem argsortAsc_sorted (s : List (Option ℚ)) :
    (argsortAsc s).Pairwise (fun i j => idxLe s i j = true) := by
  haveI : IsTotal ℕ (fun i j => idxLe s i j = true) :=
    ⟨fun a b => idxLe_total s a b⟩
  haveI : IsTrans ℕ (fun i j => idxLe s i j = true) :=
    ⟨fun a b c => idxLe_trans s a b c⟩
  exact List.sorted_insertionSort _ _

theorem argsortAsc_nodup (s : List (Option ℚ)) : (argsortAsc s).Nodup :=
  ((List.perm_insertionSort _ _).symm).nodup (List.nodup_range _)

theorem argsortAsc_pairwise (s : List (Option ℚ)) :
    (argsortAsc s).Pairwise (fun i j => idxGt s j i) :=
  ((argsortAsc_sorted s).and (argsortAsc_nodup s)).imp
    (fun h => idxLe_strict s h.1 h.2)

theorem rankedIdx_pairwise (db : DB) (q : List ℚ) (k : ℕ) :
    (rankedIdx db q k).Pairwise (fun i j => idxGt (simsOf db q) i j) := by
  unfold rankedIdx
  refine List.Pairwise.sublist (List.take_sublist _ _) ?_
  rw [List.pairwise_reverse]
  exact argsortAsc_pairwise _

theorem rankedIdx_length_le (db : DB) (q : List ℚ) (k : ℕ) :
    (rankedIdx db q k).length ≤ k :=
  List.length_take_le _ _

theorem simScoreSq_some {q v : List ℚ} {x : ℚ}
    (h : simScoreSq q v = some x) : normSq v ≠ 0 ∧ normSq q ≠ 0 := by
  unfold simScoreSq at h
  split at h
  · exact absurd h (by simp)
  · rename_i hn
    push_neg at hn
    exact hn

theorem simsOf_getD_some {db : DB} {q : List ℚ} {i : ℕ} {x : ℚ}
    (h : (simsOf db q).getD i none = some x) :
    ∃ v ∈ db.embeddings, simScoreSq q v = some x := by
  rw [List.getD_eq_getElem?_getD] at h
  unfold simsOf at h
  rw [List.getElem?_map] at h
  cases hv : db.embeddings[i]? with
  | none => rw [hv] at h; simp at h
  | some v =>
    rw [hv] at h
    simp only [Option.map_some', Option.getD_some] at h
    have hget : db.embeddings.get? i = some v := by
      rw [List.get?_eq_getElem?]
      exact hv
    exact ⟨v, List.get?_mem hget, h⟩

theorem results_loop_spec (db : DB) (s : List (Option ℚ)) (t : ℚ) :
    ∀ (l : List ℕ) (rs : List SearchResult),
      results_loop db s t l = some rs →
      rs.length ≤ l.length ∧
      ∀ r ∈ rs, ∃ i ∈ l, s.getD i none = some r.score ∧ t ≤ r.score := by
  intro l
  induction l with
  | nil =>
    intro rs h
    simp only [results_loop, Option.some.injEq] at h
    subst h
    exact ⟨by simp, by simp⟩
  | cons i rest ih =>
    intro rs h
    simp only [results_loop] at h
    cases hsc : s.getD i none with
    | none =>
      rw [hsc] at h
      simp only [] at h
      obtain ⟨hlen, hmem⟩ := ih rs h
      refine ⟨by simp; omega, fun r hr => ?_⟩
      obtain ⟨j, hj, hjs⟩ := hmem r hr
      exact ⟨j, List.mem_cons_of_mem _ hj, hjs⟩
    | some sc =>
      rw [hsc] at h
      simp only [] at h
      split at h
      · rename_i hts
        split at h
        · rename_i c m hc hm
          cases hrec : results_loop db s t rest with
          | none => rw [hrec] at h; simp at h
          | some rs' =>
            rw [hrec] at h
            simp only [Option.map_some', Option.some.injEq] at h
            subst h
            obtain ⟨hlen, hmem⟩ := ih rs' hrec
            constructor
            · simp only [List.length_cons]
              omega
            · intro r hr
              rcases List.mem_cons.mp hr with hr | hr
              · subst hr
                exact ⟨i, List.mem_cons_self _ _, hsc, hts⟩
              · obtain ⟨j, hj, hjs⟩ := hmem r hr
                exact ⟨j, List.mem_cons_of_mem _ hj, hjs⟩
        · simp at h
      · rename_i hts
        obtain ⟨hlen, hmem⟩ := ih rs h
        refine ⟨by simp; omega, fun r hr => ?_⟩
        obtain ⟨j, hj, hjs⟩ := hmem r hr
        exact ⟨j, List.mem_cons_of_mem _ hj, hjs⟩

theorem results_loop_sorted (db : DB) (s : List (Option ℚ)) (t : ℚ) :
    ∀ (l : List ℕ) (rs : List SearchResult),
      l.Pairwise (fun i j => idxGt s i j) →
      results_loop db s t l = some rs →
      rs.Pairwise (fun a b => b.score ≤ a.score) := by
  intro l
  induction l with
  | nil =>
    intro rs _ h
    simp only [results_loop, Option.some.injEq] at h
    subst h
    exact List.Pairwise.nil
  | cons i rest ih =>
    intro rs hp h
    obtain ⟨hhead, htail⟩ := List.pairwise_cons.mp hp
    simp only [results_loop] at h
    cases hsc : s.getD i none with
    | none =>
      rw [hsc] at h
      simp only [] at h
      exact ih rs htail h
    | some sc =>
      rw [hsc] at h
      simp only [] at h
      split at h
      · rename_i hts
        split at h
        · rename_i c m hc hm
          cases hrec : results_loop db s t rest with
          | none => rw [hrec] at h; simp at h
          | some rs' =>
            rw [hrec] at h
            simp only [Option.map_some', Option.some.injEq] at h
            subst h
            refine List.pairwise_cons.mpr ⟨?_, ih rs' htail hrec⟩
            intro b hb
            obtain ⟨j, hj, hjs, _⟩ :=
              (results_loop_spec db s t rest rs' hrec).2 b hb
            rcases hhead j hj with hlt | ⟨heq, _⟩
            · rw [hjs, hsc] at hlt
              simp only [scoreLt, decide_eq_true_eq] at hlt
              exact le_of_lt hlt
            · rw [hsc, hjs] at heq
              simp only [Option.some.injEq] at heq
              exact le_of_eq heq.symm
        · simp at h
      · exact ih rs htail h

/-! ## Search claims (C2, C5, C6) -/

/-- C5 (amended): search results are sorted in descending order of
similarity score — no two adjacent results have ascending scores — and the
ranking order of the selected store indices is: strictly greater score
first, with *equal* scores in **reverse** insertion order (larger store
index first), because `np.argsort(similarities)[::-1]` reverses an
ascending argsort, which also reverses the relative order of tied
entries. -/
theorem search_sorted_desc (db : DB) (q : List ℚ) (k : ℕ) (t : ℚ) :
    (search_similar db q k t).Pairwise (fun a b => b.score ≤ a.score) ∧
    (rankedIdx db q k).Pairwise (fun i j => idxGt (simsOf db q) i j) := by
  refine ⟨?_, rankedIdx_pairwise db q k⟩
  unfold search_similar
  split
  · exact List.Pairwise.nil
  · split
    · exact List.Pairwise.nil
    · split
      · exact List.Pairwise.nil
      · cases hres : results_loop db (simsOf db q) t (rankedIdx db q k) with
        | none => simp only [hres]; exact List.Pairwise.nil
        | some rs =>
          simp only [hres]
          exact results_loop_sorted db (simsOf db q) t (rankedIdx db q k) rs
            (rankedIdx_pairwise db q k) hres

/-- C2: for every store state, query vector, `top_k` and threshold, search
returns at most `top_k` results and no result whose score is below the
threshold; and because the threshold filter runs strictly *after* top-k
selection, a call can return fewer than `top_k` results even though
stored entries beyond the top-k cutoff clear the threshold (second
conjunct: a store where 3 entries clear the threshold but `top_k = 2` are
returned; third conjunct: a call returning fewer than `top_k`). -/
theorem search_topk_threshold :
    (∀ (db : DB) (q : List ℚ) (k : ℕ) (t : ℚ),
      (search_similar db q k t).length ≤ k ∧
      ∀ r ∈ search_similar db q k t, t ≤ r.score) ∧
    (∃ (db : DB) (q : List ℚ) (k : ℕ) (t : ℚ),
      k < countClearing db q t ∧ (search_similar db q k t).length = k) ∧
    (∃ (db : DB) (q : List ℚ) (k : ℕ) (t : ℚ),
      0 < countClearing db q t ∧ (search_similar db q k t).length < k) := by
  refine ⟨fun db q k t => ?_, ?_, ?_⟩
  · unfold search_similar
    split
    · simp
    · split
      · simp
      · split
        · simp
        · cases hres : results_loop db (simsOf db q) t (rankedIdx db q k) with
          | none => simp [hres]
          | some rs =>
            simp only [hres]
            obtain ⟨hlen, hmem⟩ :=
              results_loop_spec db (simsOf db q) t (rankedIdx db q k) rs hres
            refine ⟨le_trans hlen (rankedIdx_length_le db q k),
              fun r hr => ?_⟩
            obtain ⟨i, _, _, hts⟩ := hmem r hr
            exact hts
  · exact ⟨db3, [2, 0], 2, 0, by decide, by decide⟩
  · exact ⟨dbA, [1, 0], 2, 0, by decide, by decide⟩

/-- Witness for the universal part of `search_topk_threshold` at a
concrete input: the top result of `db3` for query `[2, 0]`. -/
theorem search_topk_threshold_witness :
    (0 : ℚ) ≤ (⟨"a".data, "a", 1, "a_chunk_0", derive_meta chunkA⟩ :
      SearchResult).score :=
  (search_topk_threshold.1 db3 [2, 0] 2 0).2
    ⟨"a".data, "a", 1, "a_chunk_0", derive_meta chunkA⟩ (by decide)

/-- C6 (amended): search results never contain a NaN score and zero-norm
vectors never reach the results: every returned result's score comes from
a stored vector with nonzero norm compared against a query with nonzero
norm.  (The exclusion happens only because `NaN >= threshold` is false at
the final filter — see `search_zero_norm_cex` for the missing explicit
guard.) -/
theorem search_no_nan_in_results (db : DB) (q : List ℚ) (k : ℕ) (t : ℚ) :
    ∀ r ∈ search_similar db q k t,
      ∃ v ∈ db.embeddings, normSq v ≠ 0 ∧ normSq q ≠ 0 ∧
        simScoreSq q v = some r.score := by
  intro r hr
  unfold search_similar at hr
  split at hr
  · simp at hr
  · split at hr
    · simp at hr
    · split at hr
      · simp at hr
      · cases hres : results_loop db (simsOf db q) t (rankedIdx db q k) with
        | none => rw [hres] at hr; simp at hr
        | some rs =>
          rw [hres] at hr
          obtain ⟨i, _, hs, _⟩ :=
            (results_loop_spec db (simsOf db q) t (rankedIdx db q k) rs
              hres).2 r hr
          obtain ⟨v, hv, hsv⟩ := simsOf_getD_some hs
          obtain ⟨hnv, hnq⟩ := simScoreSq_some hsv
          exact ⟨v, hv, hnv, hnq, hsv⟩

/-- Witness for `search_no_nan_in_results` at a concrete input: the single
result of `dbZero` for query `[1, 0]` with `top_k = 2`. -/
theorem search_no_nan_in_results_witness :
    ∃ v ∈ dbZero.embeddings, normSq v ≠ 0 ∧ normSq ([1, 0] : List ℚ) ≠ 0 ∧
      simScoreSq [1, 0] v =
        some (⟨"b".data, "b", 1, "b_chunk_0", derive_meta chunkB⟩ :
          SearchResult).score :=
  search_no_nan_in_results dbZero [1, 0] 2 (1/2)
    ⟨"b".data, "b", 1, "b_chunk_0", derive_meta chunkB⟩ (by decide)

/-- C6 (counterexample): there is no explicit zero-norm guard.  On a store
whose first entry is the zero vector: (1) the NaN produced by `0/0`
propagates into the similarity scores; (2) with `top_k = 1` the NaN entry
— which `np.argsort` places *first* after the descending reversal —
consumes the only top-k slot and is then dropped by the threshold test, so
the search returns nothing; (3) the spec's guarded search (zero-norm
treated as score 0 and excluded by the threshold) would return the good
entry instead. -/
theorem search_zero_norm_cex :
    none ∈ simsOf dbZero [1, 0] ∧
    search_similar dbZero [1, 0] 1 (1/2) = [] ∧
    (search_guarded dbZero [1, 0] 1 (1/2)).map SearchResult.chunk_id =
      ["b_chunk_0"] := by decide

/-- C5 (counterexample): ties are *not* returned in original insertion
order.  `dbTie` holds two entries with identical vectors, inserted as
`"a"` (index 0) then `"b"` (index 1); both score 1 against the query, yet
the search returns `"b"` before `"a"` — the reversal of the ascending
argsort puts tied entries in reverse insertion order. -/
theorem search_tie_order_cex :
    dbTie.chunks.map Chunk.chunk_id = ["a_chunk_0", "b_chunk_0"] ∧
    (search_similar dbTie [1, 0] 5 0).map (fun r => (r.chunk_id, r.score)) =
      [("b_chunk_0", (1 : ℚ)), ("a_chunk_0", (1 : ℚ))] := by decide

end RagCore
